import Mathlib

/-!
Verification development for the `essentials-of-microeconomics` teaching app.

The application parses user-entered algebraic equations, solves and
integrates them with a computer-algebra library, and renders the derived
economic quantities.  All model calculators in the repository act on the
linear (demand/supply, elasticity) and quadratic (cost) fragment that the
shipped defaults exercise; the embedding below models the computer-algebra
calls on that fragment:

* equations are rational-coefficient linear relations;
* `solve` of a linear equation or a 2x2 linear system returns the list of
  solutions, filtering out solutions that contradict the positivity
  assumptions the modules place on their symbols (`symbols(..., positive=True)`);
* `integrate` of an affine integrand is its closed-form antiderivative
  difference, and `diff` of an affine function is its slope;
* numeric evaluation `N(expr, prec)` is modelled as rounding to `prec`
  binary digits (a dyadic rational), with sympy structural equality `==`
  comparing the represented values.

Every module calculator is a `reactive.Calc`; `req(...)` cancellation is
modelled by `Option` (`none` = output cancelled), and Python exceptions
that the repository code does not catch are modelled by `Except` errors.
-/

namespace SymPy

/-- Model of sympy `solve(cs*S + co*O - c, S)` where `S` is the symbol being
solved for and `O` is the other symbol, both declared `positive=True`.
If `cs = 0` there is no solution for `S`.  Otherwise the unique solution is
the affine function `a0 + a1*O` of the other symbol, returned as the pair
`(a0, a1)`; sympy discards a solution that is incompatible with the
positivity assumption, which for an affine function of a positive symbol is
decidable exactly when `a0 ≤ 0 ∧ a1 ≤ 0` (the expression is then provably
nonpositive). -/
def solveAffine (cs co c : ℚ) : List (ℚ × ℚ) :=
  if cs = 0 then []
  else
    if c / cs ≤ 0 ∧ -co / cs ≤ 0 then []
    else [(c / cs, -co / cs)]

/-- Model of sympy `solve([eq1, eq2], (V1, V2), dict=True)` for the linear
system `a1*V1 + b1*V2 = c1`, `a2*V1 + b2*V2 = c2` with both unknowns
declared `positive=True`: when the determinant is nonzero the unique
solution is returned by Cramer's rule, and is discarded when it violates
positivity.  Singular systems return no numeric solution. -/
def solve2 (a1 b1 c1 a2 b2 c2 : ℚ) : List (ℚ × ℚ) :=
  if a1 * b2 - a2 * b1 = 0 then []
  else
    if 0 < (c1 * b2 - c2 * b1) / (a1 * b2 - a2 * b1) ∧
        0 < (a1 * c2 - a2 * c1) / (a1 * b2 - a2 * b1) then
      [((c1 * b2 - c2 * b1) / (a1 * b2 - a2 * b1),
        (a1 * c2 - a2 * c1) / (a1 * b2 - a2 * b1))]
    else []

/-- Model of sympy `integrate(a + b*Q, (Q, lo, hi))`: the closed-form
antiderivative `a*Q + b*Q^2/2` evaluated between the bounds. -/
def integrate_affine (a b lo hi : ℚ) : ℚ :=
  (a * hi + b * hi ^ 2 / 2) - (a * lo + b * lo ^ 2 / 2)

end SymPy

namespace Util

/-- Integer part of a nonnegative rational, as a rational. -/
def intPart (q : ℚ) : ℚ := ((q.num / (q.den : ℤ) : ℤ) : ℚ)

/-- Decimal digits of a fractional part `f` (with `0 ≤ f < 1`), produced by
repeated multiplication by 10; `fuel` bounds the number of digits, which is
enough for every dyadic rational produced by the modelled `N`. -/
def fracDigits : ℕ → ℚ → String
  | 0, _ => ""
  | fuel + 1, f =>
    if f = 0 then ""
    else toString ((f * 10).num / ((f * 10).den : ℤ)) ++
      fracDigits fuel (f * 10 - intPart (f * 10))

/-- Decimal rendering of a nonnegative rational, used for sympy `Float`
atoms: integer part, decimal point, then the fractional digits (a single
`0` when the value is integral, as in sympy a `Float` prints `2.0`). -/
def decimalOfNonneg (q : ℚ) : String :=
  toString (q.num / (q.den : ℤ)) ++ "." ++
    (if q - intPart q = 0 then "0" else fracDigits 400 (q - intPart q))

/-- Decimal rendering of a sympy `Float` atom with value `q`. -/
def decimalString (q : ℚ) : String :=
  if q < 0 then "-" ++ decimalOfNonneg (-q) else decimalOfNonneg q

/-- Model of the sympy numeric atoms that `util.latex_approx` distinguishes:
exact `Integer`/`Rational` atoms and inexact `Float` atoms.  sympy
structural equality `==` identifies a `Float` with an exact number of the
same value (`Integer(2) == Float(2.0)` is `True`), so the equality test in
the embedded code compares the represented values via `val`. -/
inductive SymExpr
  | exact (q : ℚ)
  | flt (q : ℚ)
  deriving DecidableEq

/-- Rational value represented by a sympy numeric atom. -/
def val : SymExpr → ℚ
  | .exact q => q
  | .flt q => q

/-- Model of `sympy.latex` on numeric atoms: exact integers print bare,
exact fractions print as `\frac`, floats print in decimal notation. -/
def latex : SymExpr → String
  | .exact q =>
    if q.den = 1 then toString q.num
    else if q < 0 then
      "- \\frac\x7b" ++ toString (-q).num ++ "\x7d\x7b" ++ toString (-q).den ++ "\x7d"
    else "\\frac\x7b" ++ toString q.num ++ "\x7d\x7b" ++ toString q.den ++ "\x7d"
  | .flt q => decimalString q

/-- Rounding of a rational to `perc` binary digits (the value grid of a
binary float), implemented as integer rounding of `q * 2 ^ perc`. -/
def dyadicRound (q : ℚ) (perc : ℕ) : ℚ :=
  (((2 * q.num * 2 ^ perc + q.den) / (2 * (q.den : ℤ)) : ℤ) : ℚ) / 2 ^ perc

/-- Model of sympy `N(expr, prec)`: evaluation to a `Float` carrying the
value rounded to `prec` binary digits of precision (the settings panel
calls the slider bound to this argument the binary precision). -/
def N (e : SymExpr) (perc : ℕ) : SymExpr :=
  .flt (dyadicRound (val e) perc)

/-- Enum `Approx` from `util.py`, with members `HIDE`, `REPLACE` and
`APPEND` (UI values "Hide", "Replace", "Append"). -/
inductive Approx
  | HIDE
  | REPLACE
  | APPEND
  deriving DecidableEq

/-- Embedding of `util.latex_approx`: return the plain LaTeX when the mode
is `HIDE`; otherwise evaluate numerically, return the plain LaTeX when the
evaluation equals (sympy `==`) the expression, and otherwise substitute
(`REPLACE`) or append (`APPEND`) the evaluation.  The trailing
`assert False` of the source is unreachable because `Approx` has exactly
the three members. -/
def latex_approx (expr : SymExpr) (perc : ℕ) (approx : Approx) : String :=
  if approx = Approx.HIDE then latex expr
  else
    let evalf := N expr perc
    if val evalf = val expr then latex expr
    else if approx = Approx.REPLACE then latex evalf
    else latex expr ++ "\\approx " ++ latex evalf

end Util

/-- Python-level errors that the embedded calculators can let escape. -/
inductive PyErr
  | syntaxError
  | typeError
  | nameError
  deriving DecidableEq

/-- Outcome of a call to `parse_expr`/`parse_expr_safer` on a raw text-field
value: either a parsed value or a parse failure (`SyntaxError`). -/
inductive ParseOutcome (α : Type)
  | success (v : α)
  | syntaxError
  deriving DecidableEq

/-- Sympy numeric atoms reachable through the `trade_and_ppf` sanitizer
and its opportunity-cost ratios: finite rationals together with the
typeable special atoms positive infinity `oo`, negative infinity `-oo`,
complex infinity `zoo` (also the result of dividing a nonzero finite
number by zero) and `nan`. -/
inductive SymNum
  | fin (q : ℚ)
  | inf
  | ninf
  | zoo
  | nan
  deriving DecidableEq

/-- Property of being a strictly positive real sympy number: a positive
finite rational or `oo` (for which `oo > 0` is true). -/
def SymNum.posReal : SymNum → Prop
  | .fin q => 0 < q
  | .inf => True
  | .ninf => False
  | .zoo => False
  | .nan => False

/-- Model of the sympy truth test `bool(value > 0)` on a numeric atom:
decidable for the real atoms (`oo > 0` is `True`, `-oo > 0` and `nan > 0`
are `False`), and raising `TypeError` for the non-real `zoo`. -/
def symIsPos : SymNum → Except PyErr Bool
  | .fin q => .ok (decide (0 < q))
  | .inf => .ok true
  | .ninf => .ok false
  | .nan => .ok false
  | .zoo => .error .typeError

/-- Model of sympy division on numeric atoms: finite division is exact
rational division, a nonzero finite number divided by zero is `zoo` and
`0/0` is `nan`, a finite number divided by any infinity is `0`, an
infinity divided by a finite number keeps (or flips) its direction and is
`zoo` over zero, ratios of two infinities are `nan`, `zoo` divided by a
finite number stays `zoo`, and every division involving `nan`, or of an
infinity by `zoo`, is `nan`. -/
def symDiv : SymNum → SymNum → SymNum
  | .fin a, .fin b =>
    if b = 0 then (if a = 0 then .nan else .zoo) else .fin (a / b)
  | .fin _, .inf => .fin 0
  | .fin _, .ninf => .fin 0
  | .fin _, .zoo => .fin 0
  | .fin _, .nan => .nan
  | .inf, .fin b => if b = 0 then .zoo else if 0 < b then .inf else .ninf
  | .ninf, .fin b => if b = 0 then .zoo else if 0 < b then .ninf else .inf
  | .inf, _ => .nan
  | .ninf, _ => .nan
  | .zoo, .fin _ => .zoo
  | .zoo, _ => .nan
  | .nan, _ => .nan

/-- Values relevant to the `trade_and_ppf` sanitizer: a numeric atom
(finite or one of the special infinities/`nan`), the Python value `None`
(e.g. the raw text `None` evaluates to it), or a symbolic non-numeric
expression (e.g. the raw text `x`), whose comparison with `0` is
undecidable and raises `TypeError`. -/
inductive TPVal
  | num (v : SymNum)
  | pynone
  | sym
  deriving DecidableEq

/-- Pattern shared by every solve-based calculator:
`req(len(solutions) == 1)` followed by `solutions[0]`.  The output is the
unique solution, and is cancelled (`none`) when the number of solutions
differs from one. -/
def reqSingle {α : Type} (l : List α) : Option α :=
  match l with
  | [x] => some x
  | _ => none

/-- Linear relation `a*V1 + b*V2 = c` between the two symbols of a module
(`P` and `Q` for the market modules, `x` and `y` for elasticity): the
normal form of a parsed equation such as `Eq(Q, 50 - P/2)`. -/
structure LinRel where
  a : ℚ
  b : ℚ
  c : ℚ
  deriving DecidableEq

/-- Quadratic total-cost expression `c0 + c1*Q + c2*Q^2`, the fragment
exercised by the monopoly module (default `300 + 10Q + Q^2/2`). -/
structure Quad where
  c0 : ℚ
  c1 : ℚ
  c2 : ℚ
  deriving DecidableEq

namespace SymPy

/-- Model of sympy `solve(k + m*Q, Q)` for a single positive symbol `Q` and
numeric coefficients: the solution `-k/m` exists for `m ≠ 0` and is
discarded when it is not positive. -/
def solveLinear1 (k m : ℚ) : List ℚ :=
  if m = 0 then []
  else if 0 < -k / m then [-k / m] else []

end SymPy

namespace TradeAndPPF

/-- Embedding of the `sanitize` calculator of `trade_and_ppf.py` (lines
127–137): parse the raw field, require a value that is not `None` and
whose truth test `value > 0` holds, cancelling the output otherwise; a
`SyntaxError` is caught and also cancels.  The positivity test accepts
the typeable atom `oo` (for which `oo > 0` is true) as well as positive
finite numbers; on a symbolic non-numeric expression, or on the non-real
`zoo`, the truth test raises `TypeError`, which the calculator does not
catch. -/
def sanitize : ParseOutcome TPVal → Except PyErr (Option SymNum)
  | .success (.num v) =>
    match symIsPos v with
    | .ok b => .ok (if b then some v else none)
    | .error e => .error e
  | .success .pynone => .ok none
  | .success .sym => .error .typeError
  | .syntaxError => .ok none

/-- Opportunity cost of good a for party A (`trade_and_ppf.py` line 142). -/
def cost_a_a (max_a_a max_a_b : SymNum) : SymNum := symDiv max_a_b max_a_a

/-- Opportunity cost of good b for party A (`trade_and_ppf.py` line 146). -/
def cost_a_b (max_a_a max_a_b : SymNum) : SymNum := symDiv max_a_a max_a_b

/-- Opportunity cost of good a for party B (`trade_and_ppf.py` line 150). -/
def cost_b_a (max_b_a max_b_b : SymNum) : SymNum := symDiv max_b_b max_b_a

/-- Opportunity cost of good b for party B (`trade_and_ppf.py` line 154). -/
def cost_b_b (max_b_a max_b_b : SymNum) : SymNum := symDiv max_b_a max_b_b

/-- Advantaged-party determination of `generate_advantage_text`
(`trade_and_ppf.py` lines 85–96) for one good: the party with the larger
maximum, or `none` for a tie.  The function applies this to the two goods
in turn before rendering the text. -/
def advantage_party (party_a party_b : String) (max_a max_b : ℚ) :
    Option String :=
  if max_a > max_b then some party_a
  else if max_a = max_b then none
  else some party_b

end TradeAndPPF

namespace AppLegacy

/-- Advantaged-party determination of the legacy `tp_abs_adv` renderer
(`app.py` lines 41–52) for one good, applied to the numeric production
maxima of the two parties. -/
def tp_abs_adv_party (party_a party_b : String) (max_a max_b : ℚ) :
    Option String :=
  if max_a > max_b then some party_a
  else if max_a = max_b then none
  else some party_b

/-- Structural skeleton of a `ui.nav` page: its title and the input and
output ids it contains, in document order. -/
structure NavPage where
  title : String
  inputIds : List String
  outputIds : List String
  deriving DecidableEq

/-- Embedding of the top-level `app_ui` (`app.py` lines 6–34): a
`page_fluid` holding a `navset_tab` whose only nav is the Trade and PPF
page, with text inputs for the two good and party names, numeric inputs
for the four production maxima, and the advantage text, opportunity-cost
table and PPF plot outputs. -/
def app_ui : List NavPage :=
  [⟨"Trade and PPF",
    ["tp_good_a", "tp_good_b", "tp_party_a", "tp_max_a_a", "tp_max_a_b",
     "tp_party_b", "tp_max_b_a", "tp_max_b_b"],
    ["tp_abs_adv", "tp_oppo_cost", "tp_ppf"]⟩]

end AppLegacy

namespace DS

/-- Embedding of the `demand` calculator of `module.py` (lines 33–36):
`parse_expr_safer` is called with no exception handling, so a parse
failure propagates out of the calculator. -/
def demand : ParseOutcome LinRel → Except PyErr (Option LinRel)
  | .success rel => .ok (some rel)
  | .syntaxError => .error .syntaxError

/-- Embedding of `P_d` from `module.py` (lines 38–42): solve the demand
relation for `P`, require exactly one solution (`req(len(solutions) == 1)`
cancels the output otherwise), and return it as an affine function
`(intercept, slope)` of `Q`. -/
def P_d (d : LinRel) : Option (ℚ × ℚ) :=
  reqSingle (SymPy.solveAffine d.a d.b d.c)

/-- Embedding of `P_s` from `module.py` (lines 49–53), identical in form
to `P_d` on the supply relation. -/
def P_s (s : LinRel) : Option (ℚ × ℚ) :=
  reqSingle (SymPy.solveAffine s.a s.b s.c)

end DS

namespace EW

/-- Names in scope in `equilibrium_and_welfare.py`: the imports of lines
1–3 (`shiny` names, the six `sympy` names, and `mathjax_script` from the
absent `common` module).  `simplify`, used by `CS`, `PS` and `TS`, is not
among them, so those calculators raise `NameError` when run. -/
def importedNames : List String :=
  ["module", "reactive", "render", "req", "ui",
   "Eq", "integrate", "latex", "parse_expr", "solve", "symbols",
   "mathjax_script"]

/-- Embedding of the `demand` calculator of `equilibrium_and_welfare.py`
(lines 64–67): `parse_expr` is called with no exception handling, so a
parse failure propagates out of the calculator as an exception. -/
def demand : ParseOutcome LinRel → Except PyErr (Option LinRel)
  | .success rel => .ok (some rel)
  | .syntaxError => .error .syntaxError

/-- Embedding of `P_d` of `equilibrium_and_welfare.py` (lines 69–73). -/
def P_d (d : LinRel) : Option (ℚ × ℚ) :=
  reqSingle (SymPy.solveAffine d.a d.b d.c)

/-- Embedding of `P_s` of `equilibrium_and_welfare.py` (lines 80–84). -/
def P_s (s : LinRel) : Option (ℚ × ℚ) :=
  reqSingle (SymPy.solveAffine s.a s.b s.c)

/-- Embedding of `equilibrium` (lines 86–90): solve the demand/supply
system for `(P, Q)` and require exactly one solution. -/
def equilibrium (d s : LinRel) : Option (ℚ × ℚ) :=
  reqSingle (SymPy.solve2 d.a d.b d.c s.a s.b s.c)

/-- Embedding of `P_optimal` (lines 92–94). -/
def P_optimal (d s : LinRel) : Option ℚ := (equilibrium d s).map Prod.fst

/-- Embedding of `Q_optimal` (lines 96–98). -/
def Q_optimal (d s : LinRel) : Option ℚ := (equilibrium d s).map Prod.snd

/-- Embedding of `CS` (lines 100–103): the integral of `P_d - P*` over `Q`
from `0` to `Q*`.  The source line wraps the integral in `simplify`, a name
the file never imports (see `importedNames`), so running the calculator
raises `NameError`; the intended computation is embedded, `simplify` being
the identity on these closed forms. -/
def CS (d s : LinRel) : Option ℚ := do
  let pd ← P_d d
  let e ← equilibrium d s
  pure (SymPy.integrate_affine (pd.1 - e.1) pd.2 0 e.2)

/-- Embedding of `PS` (lines 105–108): the integral of `P* - P_s` over `Q`
from `0` to `Q*`; the same missing-import caveat as `CS` applies. -/
def PS (d s : LinRel) : Option ℚ := do
  let ps ← P_s s
  let e ← equilibrium d s
  pure (SymPy.integrate_affine (e.1 - ps.1) (-ps.2) 0 e.2)

/-- Embedding of `TS` (lines 110–112): `CS + PS`; the same missing-import
caveat as `CS` applies. -/
def TS (d s : LinRel) : Option ℚ := do
  let cs ← CS d s
  let ps ← PS d s
  pure (cs + ps)

end EW

namespace Tax

/-- Embedding of `taxed_demand` of `taxes_and_subsidies.py` (lines
105–107): the demand relation with `P` substituted by `P + t_c`, which for
`a*P + b*Q = c` gives `a*P + b*Q = c - a*t_c`. -/
def taxed_demand (d : LinRel) (tc : ℚ) : LinRel := ⟨d.a, d.b, d.c - d.a * tc⟩

/-- Embedding of `taxed_supply` (lines 115–117): the supply relation with
`P` substituted by `P - t_p`. -/
def taxed_supply (s : LinRel) (tp : ℚ) : LinRel := ⟨s.a, s.b, s.c + s.a * tp⟩

/-- Embedding of `equilibrium` of `taxes_and_subsidies.py` (lines 91–95):
solve the no-tax demand/supply system for `(P, Q)` and require exactly one
solution. -/
def equilibrium (d s : LinRel) : Option (ℚ × ℚ) :=
  reqSingle (SymPy.solve2 d.a d.b d.c s.a s.b s.c)

/-- Embedding of `P_optimal` (lines 97–99). -/
def P_optimal (d s : LinRel) : Option ℚ := (equilibrium d s).map Prod.fst

/-- Embedding of `Q_optimal` (lines 101–103). -/
def Q_optimal (d s : LinRel) : Option ℚ := (equilibrium d s).map Prod.snd

/-- Embedding of `taxed_equilibrium` (lines 125–131): solve the taxed
demand/supply system and require exactly one solution. -/
def taxed_equilibrium (d s : LinRel) (tc tp : ℚ) : Option (ℚ × ℚ) :=
  reqSingle (SymPy.solve2 (taxed_demand d tc).a (taxed_demand d tc).b
      (taxed_demand d tc).c (taxed_supply s tp).a (taxed_supply s tp).b
      (taxed_supply s tp).c)

/-- Embedding of `Q_taxed` (lines 133–135). -/
def Q_taxed (d s : LinRel) (tc tp : ℚ) : Option ℚ :=
  (taxed_equilibrium d s tc tp).map Prod.snd

/-- Embedding of `P_taxed_consumer` (lines 137–139): the inverse demand
expression from `module.py` evaluated at `Q^t`. -/
def P_taxed_consumer (d s : LinRel) (tc tp : ℚ) : Option ℚ := do
  let pd ← DS.P_d d
  let qt ← Q_taxed d s tc tp
  pure (pd.1 + pd.2 * qt)

/-- Embedding of `P_taxed_producer` (lines 141–143): the inverse supply
expression from `module.py` evaluated at `Q^t`. -/
def P_taxed_producer (d s : LinRel) (tc tp : ℚ) : Option ℚ := do
  let ps ← DS.P_s s
  let qt ← Q_taxed d s tc tp
  pure (ps.1 + ps.2 * qt)

/-- Embedding of `GR` (lines 145–147): government revenue
`(t_c + t_p) * Q^t`. -/
def GR (d s : LinRel) (tc tp : ℚ) : Option ℚ :=
  (Q_taxed d s tc tp).map fun qt => (tc + tp) * qt

/-- Embedding of `DWL` (lines 149–151): the integral of `P_d - P_s` over
`Q` from `Q^t` to `Q^*`. -/
def DWL (d s : LinRel) (tc tp : ℚ) : Option ℚ := do
  let pd ← DS.P_d d
  let ps ← DS.P_s s
  let qt ← Q_taxed d s tc tp
  let q0 ← Q_optimal d s
  pure (SymPy.integrate_affine (pd.1 - ps.1) (pd.2 - ps.2) qt q0)

end Tax

namespace Elast

/-- Embedding of the solve step of the `y` calculator of `elasticity.py`
(lines 197–205) on a parsed relation `a*x + b*y = c`: solve for the
dependent positive symbol `y`, require exactly one solution
(`req(len(solutions) == 1)`), and return it as an affine function
`(intercept, slope)` of `x`. -/
def y (rel : LinRel) : Option (ℚ × ℚ) :=
  reqSingle (SymPy.solveAffine rel.b rel.a rel.c)

/-- Embedding of the full `y` calculator including parsing: `parse_expr_safer`
is called with no exception handling, so a parse failure propagates out of
the calculator as an exception instead of cancelling the output. -/
def y_calc : ParseOutcome LinRel → Except PyErr (Option (ℚ × ℚ))
  | .success rel => .ok (y rel)
  | .syntaxError => .error .syntaxError

/-- Embedding of `epsilon` (lines 207–209): the symbolic elasticity
`diff(y(x), x) * x / y` as a function of the point `(x, y)`; for an affine
`y(x)` the derivative is the slope. -/
def epsilon (rel : LinRel) : Option (ℚ → ℚ → ℚ) :=
  (y rel).map fun yf => fun x ySym => yf.2 * x / ySym

/-- Embedding of `point_xy` (lines 215–226): solve the entered point
relation together with `Eq(y, y(x))` for `(x, y)` and take the first
solution; the bare `except` turns any failure (including an empty solution
list, whose indexing raises `IndexError`) into the empty dict, which the
dependent `req(point_xy())` then cancels on. -/
def point_xy (rel : LinRel) (pt : ParseOutcome LinRel) : Option (ℚ × ℚ) :=
  match pt with
  | .syntaxError => none
  | .success ptRel =>
    match Elast.y rel with
    | none => none
    | some yf =>
      match SymPy.solve2 ptRel.a ptRel.b ptRel.c (-yf.2) 1 yf.1 with
      | [] => none
      | s :: _ => some s

/-- Embedding of `point_x` (lines 228–231). -/
def point_x (rel : LinRel) (pt : ParseOutcome LinRel) : Option ℚ :=
  (point_xy rel pt).map Prod.fst

/-- Embedding of `point_y` (lines 233–236). -/
def point_y (rel : LinRel) (pt : ParseOutcome LinRel) : Option ℚ :=
  (point_xy rel pt).map Prod.snd

/-- Embedding of `point_epsilon` (lines 238–241): the elasticity
expression with the point substituted for `(x, y)`. -/
def point_epsilon (rel : LinRel) (pt : ParseOutcome LinRel) : Option ℚ := do
  let f ← epsilon rel
  let x0 ← point_x rel pt
  let y0 ← point_y rel pt
  pure (f x0 y0)

end Elast

namespace Monopoly

/-- Embedding of the `demand` calculator of `monopoly.py` (lines 108–120):
a parse failure is caught and cancels the output; otherwise the relation
is solved for `P` with `req(len(solutions) == 1)`, giving the inverse
demand as an affine `(intercept, slope)` in `Q`. -/
def demand : ParseOutcome LinRel → Except PyErr (Option (ℚ × ℚ))
  | .success eq =>
    .ok (reqSingle (SymPy.solveAffine eq.a eq.b eq.c))
  | .syntaxError => .ok none

/-- Embedding of `total_cost` (lines 130–136): a parse failure is caught
and cancels the output. -/
def total_cost : ParseOutcome Quad → Except PyErr (Option Quad)
  | .success tc => .ok (some tc)
  | .syntaxError => .ok none

/-- Embedding of `marginal_revenue` (lines 121–127): the derivative of
`P(Q)*Q` for the affine inverse demand `P(Q) = a0 + a1*Q`. -/
def marginal_revenue (d : ℚ × ℚ) : ℚ × ℚ := (d.1, 2 * d.2)

/-- Embedding of `marginal_cost` (lines 138–140): the derivative of the
quadratic total cost. -/
def marginal_cost (tc : Quad) : ℚ × ℚ := (tc.c1, 2 * tc.c2)

/-- Embedding of `monopoly_quantity` (lines 146–152): solve `MR - MC = 0`
for the positive symbol `Q` and require exactly one solution. -/
def monopoly_quantity (d : ℚ × ℚ) (tc : Quad) : Option ℚ :=
  reqSingle (SymPy.solveLinear1 ((marginal_revenue d).1 - (marginal_cost tc).1)
    ((marginal_revenue d).2 - (marginal_cost tc).2))

/-- Embedding of `monopoly_price` (lines 154–156): the inverse demand
expression evaluated at the monopoly quantity. -/
def monopoly_price (d : ℚ × ℚ) (tc : Quad) : Option ℚ :=
  (monopoly_quantity d tc).map fun q => d.1 + d.2 * q

end Monopoly

/-!
Helper lemmas about the modelled computer-algebra operations.
-/

theorem reqSingle_eq_some {α : Type} {l : List α} {x : α} :
    reqSingle l = some x ↔ l = [x] := by
  rcases l with _ | ⟨a, _ | ⟨b, t⟩⟩ <;> simp [reqSingle]

theorem reqSingle_eq_none {α : Type} {l : List α} (h : l.length ≠ 1) :
    reqSingle l = none := by
  rcases l with _ | ⟨a, _ | ⟨b, t⟩⟩ <;> simp_all [reqSingle]

namespace SymPy

theorem solve2_eq_singleton {a1 b1 c1 a2 b2 c2 x y : ℚ}
    (h : solve2 a1 b1 c1 a2 b2 c2 = [(x, y)]) :
    a1 * b2 - a2 * b1 ≠ 0 ∧
      x = (c1 * b2 - c2 * b1) / (a1 * b2 - a2 * b1) ∧
      y = (a1 * c2 - a2 * c1) / (a1 * b2 - a2 * b1) ∧ 0 < x ∧ 0 < y := by
  unfold solve2 at h
  by_cases hdet : a1 * b2 - a2 * b1 = 0
  · simp [hdet] at h
  · rw [if_neg hdet] at h
    by_cases hpos : 0 < (c1 * b2 - c2 * b1) / (a1 * b2 - a2 * b1) ∧
        0 < (a1 * c2 - a2 * c1) / (a1 * b2 - a2 * b1)
    · rw [if_pos hpos] at h
      obtain ⟨hx, hy⟩ := Prod.mk.injEq .. ▸ (List.cons.injEq .. ▸ h).1
      exact ⟨hdet, hx.symm, hy.symm, hx ▸ hpos.1, hy ▸ hpos.2⟩
    · simp [hpos] at h

/-- A singleton result of the modelled 2x2 solve satisfies both equations
and the positivity assumptions. -/
theorem solve2_sound {a1 b1 c1 a2 b2 c2 x y : ℚ}
    (h : solve2 a1 b1 c1 a2 b2 c2 = [(x, y)]) :
    a1 * x + b1 * y = c1 ∧ a2 * x + b2 * y = c2 ∧ 0 < x ∧ 0 < y := by
  obtain ⟨hdet, hx, hy, hxpos, hypos⟩ := solve2_eq_singleton h
  subst hx; subst hy
  refine ⟨?_, ?_, hxpos, hypos⟩
  · field_simp
    ring
  · field_simp
    ring

/-- A solution of a 2x2 linear system with nonzero determinant is unique. -/
theorem solve2_unique {a1 b1 c1 a2 b2 c2 x y : ℚ}
    (hdet : a1 * b2 - a2 * b1 ≠ 0)
    (h1 : a1 * x + b1 * y = c1) (h2 : a2 * x + b2 * y = c2) :
    x = (c1 * b2 - c2 * b1) / (a1 * b2 - a2 * b1) ∧
      y = (a1 * c2 - a2 * c1) / (a1 * b2 - a2 * b1) := by
  constructor
  · rw [eq_div_iff hdet]
    linear_combination b2 * h1 - b1 * h2
  · rw [eq_div_iff hdet]
    linear_combination a1 * h2 - a2 * h1

open intervalIntegral in
/-- The modelled closed-form `integrate` of an affine integrand agrees with
the real definite integral. -/
theorem integral_affine (a b T : ℝ) :
    ∫ t in (0 : ℝ)..T, (a + b * t) = a * T + b * T ^ 2 / 2 := by
  have h1 : IntervalIntegrable (fun _ : ℝ => a) MeasureTheory.volume 0 T :=
    intervalIntegrable_const
  have h2 : IntervalIntegrable (fun t : ℝ => b * t) MeasureTheory.volume 0 T :=
    (continuous_const.mul continuous_id).intervalIntegrable 0 T
  rw [integral_add h1 h2, integral_const, integral_const_mul, integral_id]
  simp only [smul_eq_mul, sub_zero]
  ring

/-- The real integral of the modelled affine integrand between rational
bounds equals the modelled `integrate_affine`, cast to `ℝ`. -/
theorem integrate_affine_eq_integral (a b lo hi : ℚ) :
    ((integrate_affine a b lo hi : ℚ) : ℝ) =
      (∫ t in (0 : ℝ)..(hi : ℝ), ((a : ℝ) + (b : ℝ) * t)) -
        ∫ t in (0 : ℝ)..(lo : ℝ), ((a : ℝ) + (b : ℝ) * t) := by
  rw [integral_affine, integral_affine]
  push_cast [integrate_affine]
  ring

/-- Model of sympy `diff` on an affine function, as a real derivative: the
derivative of `t ↦ c + m*t` is the slope `m`. -/
theorem deriv_affine (c m x : ℝ) : deriv (fun t : ℝ => c + m * t) x = m := by
  have h : HasDerivAt (fun t : ℝ => c + m * t) m x := by
    have := ((hasDerivAt_id x).const_mul m).const_add c
    simpa using this
  exact h.deriv

end SymPy

namespace SymPy

/-- Characterization of a singleton result of the modelled affine solve. -/
theorem solveAffine_eq_singleton {cs co c a0 a1 : ℚ}
    (h : solveAffine cs co c = [(a0, a1)]) :
    cs ≠ 0 ∧ a0 = c / cs ∧ a1 = -co / cs := by
  unfold solveAffine at h
  by_cases h0 : cs = 0
  · simp [h0] at h
  · rw [if_neg h0] at h
    by_cases hneg : c / cs ≤ 0 ∧ -co / cs ≤ 0
    · simp [hneg] at h
    · rw [if_neg hneg] at h
      obtain ⟨hx, hy⟩ := Prod.mk.injEq .. ▸ (List.cons.injEq .. ▸ h).1
      exact ⟨h0, hx.symm, hy.symm⟩

/-- The affine function returned by the modelled solve satisfies the solved
equation at every value of the other symbol. -/
theorem solveAffine_sound {cs co c a0 a1 : ℚ}
    (h : solveAffine cs co c = [(a0, a1)]) (o : ℚ) :
    cs * (a0 + a1 * o) + co * o = c := by
  obtain ⟨h0, hx, hy⟩ := solveAffine_eq_singleton h
  subst hx; subst hy
  field_simp

/-- The modelled 2x2 solve returns either no solution or a single one. -/
theorem solve2_cases (a1 b1 c1 a2 b2 c2 : ℚ) :
    solve2 a1 b1 c1 a2 b2 c2 = [] ∨
      ∃ x y, solve2 a1 b1 c1 a2 b2 c2 = [(x, y)] := by
  unfold solve2
  by_cases hdet : a1 * b2 - a2 * b1 = 0
  · simp [hdet]
  · rw [if_neg hdet]
    by_cases hpos : 0 < (c1 * b2 - c2 * b1) / (a1 * b2 - a2 * b1) ∧
        0 < (a1 * c2 - a2 * c1) / (a1 * b2 - a2 * b1)
    · rw [if_pos hpos]
      exact Or.inr ⟨_, _, rfl⟩
    · rw [if_neg hpos]
      exact Or.inl rfl

/-- The real integral of the modelled affine integrand from `0` equals the
modelled `integrate_affine` with lower bound `0`, cast to `ℝ`. -/
theorem integrate_affine_zero (a b hi : ℚ) :
    ((integrate_affine a b 0 hi : ℚ) : ℝ) =
      ∫ t in (0 : ℝ)..(hi : ℝ), ((a : ℝ) + (b : ℝ) * t) := by
  rw [integral_affine]
  push_cast [integrate_affine]
  ring

end SymPy

namespace TradeAndPPF

/-- Every value the sanitizer accepts is a strictly positive real atom: a
positive finite rational or `oo`. -/
theorem sanitize_posReal {p : ParseOutcome TPVal} {v : SymNum}
    (h : sanitize p = Except.ok (some v)) : SymNum.posReal v := by
  cases p with
  | syntaxError => simp [sanitize] at h
  | success w =>
    cases w with
    | num u =>
      cases u with
      | fin q =>
        by_cases hq : 0 < q
        · simp [sanitize, symIsPos, hq] at h
          rw [← h]
          exact hq
        · simp [sanitize, symIsPos, hq] at h
      | inf =>
        simp [sanitize, symIsPos] at h
        rw [← h]
        trivial
      | ninf => simp [sanitize, symIsPos] at h
      | zoo => simp [sanitize, symIsPos] at h
      | nan => simp [sanitize, symIsPos] at h
    | pynone => simp [sanitize] at h
    | sym => simp [sanitize] at h

/-- An accepted value is never the finite zero, so no opportunity-cost
ratio of accepted values takes the division-by-zero branch of the
modelled division (whose result would be `zoo` or, for `0/0`, `nan`). -/
theorem sanitize_ne_zero {p : ParseOutcome TPVal} {v : SymNum}
    (h : sanitize p = Except.ok (some v)) : v ≠ SymNum.fin 0 := by
  intro hv
  have := sanitize_posReal h
  rw [hv] at this
  simp [SymNum.posReal] at this

/-- Division of two accepted (strictly positive real) atoms never yields
`zoo`: the division-by-zero branch is unreachable. -/
theorem symDiv_posReal_ne_zoo {a b : SymNum}
    (ha : SymNum.posReal a) (hb : SymNum.posReal b) :
    symDiv a b ≠ SymNum.zoo := by
  cases a with
  | fin qa =>
    cases b with
    | fin qb =>
      have hb0 : qb ≠ 0 := ne_of_gt hb
      simp [symDiv, hb0]
    | inf => simp [symDiv]
    | ninf => exact absurd hb (by simp [SymNum.posReal])
    | zoo => exact absurd hb (by simp [SymNum.posReal])
    | nan => exact absurd hb (by simp [SymNum.posReal])
  | inf =>
    cases b with
    | fin qb =>
      have hbq : 0 < qb := hb
      have hb0 : qb ≠ 0 := ne_of_gt hbq
      simp [symDiv, hb0, hbq]
    | inf => simp [symDiv]
    | ninf => exact absurd hb (by simp [SymNum.posReal])
    | zoo => exact absurd hb (by simp [SymNum.posReal])
    | nan => exact absurd hb (by simp [SymNum.posReal])
  | ninf => exact absurd ha (by simp [SymNum.posReal])
  | zoo => exact absurd ha (by simp [SymNum.posReal])
  | nan => exact absurd ha (by simp [SymNum.posReal])

end TradeAndPPF

/-!
Claim theorems.
-/

/-- C8: for the same party names and the same four production maxima, the
legacy absolute-advantage renderer in `app.py` and
`generate_advantage_text` in `trade_and_ppf.py` determine the same
advantaged party (or the same tie) for each of the two goods. -/
theorem C8_advantage_agreement :
    ∀ (party_a party_b : String) (max_a_a max_a_b max_b_a max_b_b : ℚ),
      AppLegacy.tp_abs_adv_party party_a party_b max_a_a max_b_a =
          TradeAndPPF.advantage_party party_a party_b max_a_a max_b_a ∧
        AppLegacy.tp_abs_adv_party party_a party_b max_a_b max_b_b =
          TradeAndPPF.advantage_party party_a party_b max_a_b max_b_b :=
  fun _ _ _ _ _ _ => ⟨rfl, rfl⟩

/-- C7 fails on the code as stated: the top-level `app_ui` holds exactly
one page, titled "Trade and PPF", and its only inputs are the good and
party names and the four production maxima — it has no page or input for
entering demand/supply curves, cost functions, production functions or
payoff matrices, and no elasticity/equilibrium/surplus/deadweight-loss
outputs. -/
theorem C7_counterexample :
    AppLegacy.app_ui.map AppLegacy.NavPage.title = ["Trade and PPF"] ∧
      (∀ p ∈ AppLegacy.app_ui, ∀ i ∈ p.inputIds,
        i ∈ ["tp_good_a", "tp_good_b", "tp_party_a", "tp_max_a_a",
             "tp_max_a_b", "tp_party_b", "tp_max_b_a", "tp_max_b_b"]) ∧
      (∀ p ∈ AppLegacy.app_ui, ∀ o ∈ p.outputIds,
        o ∈ ["tp_abs_adv", "tp_oppo_cost", "tp_ppf"]) :=
  ⟨rfl, by decide, by decide⟩

/-- C7 amended: the application's top-level UI consists of the single
Trade and PPF page, with text inputs for the two good names and two party
names, numeric inputs for the four production maxima, and outputs for the
absolute-advantage text, the opportunity-cost table and the PPF plot; the
other topic pages exist only as module UIs that `app_ui` does not
include. -/
theorem C7_top_level_ui :
    AppLegacy.app_ui =
      [⟨"Trade and PPF",
        ["tp_good_a", "tp_good_b", "tp_party_a", "tp_max_a_a", "tp_max_a_b",
         "tp_party_b", "tp_max_b_a", "tp_max_b_b"],
        ["tp_abs_adv", "tp_oppo_cost", "tp_ppf"]⟩] ∧
      AppLegacy.app_ui.length = 1 :=
  ⟨rfl, rfl⟩

/-- C2 fails on the code as stated: in the equilibrium-and-welfare module
the `demand` input calculator calls `parse_expr` with no exception
handling, so a malformed input's parse failure propagates out of the
calculator as an unhandled exception instead of cancelling the dependent
outputs. -/
theorem C2_counterexample :
    EW.demand ParseOutcome.syntaxError = Except.error PyErr.syntaxError := rfl

/-- C2 amended: the guarded input calculators — `sanitize` in
`trade_and_ppf.py` and `demand`/`total_cost` in `monopoly.py` — catch
`SyntaxError` and cancel their outputs, and `sanitize` never lets a parse
failure escape; but the parsing calculators of the elasticity and
equilibrium-and-welfare modules propagate a parse failure as an
exception. -/
theorem C2_parse_failure_handling :
    TradeAndPPF.sanitize ParseOutcome.syntaxError = Except.ok none ∧
      Monopoly.demand ParseOutcome.syntaxError = Except.ok none ∧
      Monopoly.total_cost ParseOutcome.syntaxError = Except.ok none ∧
      (∀ p, TradeAndPPF.sanitize p ≠ Except.error PyErr.syntaxError) ∧
      Elast.y_calc ParseOutcome.syntaxError = Except.error PyErr.syntaxError ∧
      EW.demand ParseOutcome.syntaxError = Except.error PyErr.syntaxError := by
  refine ⟨rfl, rfl, rfl, ?_, rfl, rfl⟩
  intro p
  cases p with
  | syntaxError => simp [TradeAndPPF.sanitize]
  | success v =>
    cases v with
    | num u => cases u <;> simp [TradeAndPPF.sanitize, symIsPos]
    | pynone => simp [TradeAndPPF.sanitize]
    | sym => simp [TradeAndPPF.sanitize]

/-- C9 fails on the code as stated: the sanitizer accepts the typeable
input `oo` (sympy positive infinity, for which the `value > 0` test is
true), and with an accepted `oo` as a party's maximum the opportunity-cost
ratios are no longer strictly positive: `8/oo = 0`, and with `oo` for
both maxima of a party the ratio is `oo/oo = nan`. -/
theorem C9_counterexample :
    TradeAndPPF.sanitize (ParseOutcome.success (TPVal.num SymNum.inf)) =
        Except.ok (some SymNum.inf) ∧
      TradeAndPPF.cost_a_a SymNum.inf (SymNum.fin 8) = SymNum.fin 0 ∧
      ¬ SymNum.posReal (SymNum.fin 0) ∧
      TradeAndPPF.cost_a_a SymNum.inf SymNum.inf = SymNum.nan ∧
      ¬ SymNum.posReal SymNum.nan :=
  ⟨rfl, rfl, by simp [SymNum.posReal], rfl, by simp [SymNum.posReal]⟩

/-- C9 amended: every value accepted by the trade-and-PPF input sanitizer
is a strictly positive real atom — a positive finite rational or `oo` —
so no accepted maximum is zero and the division-by-zero branch (whose
result would be `zoo`) is unreachable in all four opportunity-cost
ratios; and whenever the two accepted maxima of a party are finite, that
party's two ratios are finite and strictly positive.  (An accepted `oo`
instead makes a ratio `0`, `oo` or `nan`.) -/
theorem C9_opportunity_costs_positive
    (paa pab pba pbb : ParseOutcome TPVal) (vaa vab vba vbb : SymNum)
    (haa : TradeAndPPF.sanitize paa = Except.ok (some vaa))
    (hab : TradeAndPPF.sanitize pab = Except.ok (some vab))
    (hba : TradeAndPPF.sanitize pba = Except.ok (some vba))
    (hbb : TradeAndPPF.sanitize pbb = Except.ok (some vbb)) :
    (SymNum.posReal vaa ∧ SymNum.posReal vab ∧ SymNum.posReal vba ∧
        SymNum.posReal vbb) ∧
      (vaa ≠ SymNum.fin 0 ∧ vab ≠ SymNum.fin 0 ∧ vba ≠ SymNum.fin 0 ∧
        vbb ≠ SymNum.fin 0) ∧
      (TradeAndPPF.cost_a_a vaa vab ≠ SymNum.zoo ∧
        TradeAndPPF.cost_a_b vaa vab ≠ SymNum.zoo ∧
        TradeAndPPF.cost_b_a vba vbb ≠ SymNum.zoo ∧
        TradeAndPPF.cost_b_b vba vbb ≠ SymNum.zoo) ∧
      (∀ qaa qab : ℚ, vaa = SymNum.fin qaa → vab = SymNum.fin qab →
        TradeAndPPF.cost_a_a vaa vab = SymNum.fin (qab / qaa) ∧
          0 < qab / qaa ∧
          TradeAndPPF.cost_a_b vaa vab = SymNum.fin (qaa / qab) ∧
          0 < qaa / qab) ∧
      (∀ qba qbb : ℚ, vba = SymNum.fin qba → vbb = SymNum.fin qbb →
        TradeAndPPF.cost_b_a vba vbb = SymNum.fin (qbb / qba) ∧
          0 < qbb / qba ∧
          TradeAndPPF.cost_b_b vba vbb = SymNum.fin (qba / qbb) ∧
          0 < qba / qbb) := by
  have h1 := TradeAndPPF.sanitize_posReal haa
  have h2 := TradeAndPPF.sanitize_posReal hab
  have h3 := TradeAndPPF.sanitize_posReal hba
  have h4 := TradeAndPPF.sanitize_posReal hbb
  refine ⟨⟨h1, h2, h3, h4⟩,
    ⟨TradeAndPPF.sanitize_ne_zero haa, TradeAndPPF.sanitize_ne_zero hab,
      TradeAndPPF.sanitize_ne_zero hba, TradeAndPPF.sanitize_ne_zero hbb⟩,
    ⟨TradeAndPPF.symDiv_posReal_ne_zoo h2 h1,
      TradeAndPPF.symDiv_posReal_ne_zoo h1 h2,
      TradeAndPPF.symDiv_posReal_ne_zoo h4 h3,
      TradeAndPPF.symDiv_posReal_ne_zoo h3 h4⟩, ?_, ?_⟩
  · intro qaa qab haaq habq
    subst haaq; subst habq
    have p1 : 0 < qaa := h1
    have p2 : 0 < qab := h2
    have h10 : qaa ≠ 0 := ne_of_gt p1
    have h20 : qab ≠ 0 := ne_of_gt p2
    exact ⟨by simp [TradeAndPPF.cost_a_a, symDiv, h10],
      div_pos p2 p1,
      by simp [TradeAndPPF.cost_a_b, symDiv, h20],
      div_pos p1 p2⟩
  · intro qba qbb hbaq hbbq
    subst hbaq; subst hbbq
    have p3 : 0 < qba := h3
    have p4 : 0 < qbb := h4
    have h30 : qba ≠ 0 := ne_of_gt p3
    have h40 : qbb ≠ 0 := ne_of_gt p4
    exact ⟨by simp [TradeAndPPF.cost_b_a, symDiv, h30],
      div_pos p4 p3,
      by simp [TradeAndPPF.cost_b_b, symDiv, h40],
      div_pos p3 p4⟩

/-- Witness for the amended C9 at the page's default maxima `8, 8, 2, 4`. -/
theorem C9_witness :
    (SymNum.posReal (SymNum.fin 8) ∧ SymNum.posReal (SymNum.fin 8) ∧
        SymNum.posReal (SymNum.fin 2) ∧ SymNum.posReal (SymNum.fin 4)) ∧
      (SymNum.fin 8 ≠ SymNum.fin 0 ∧ SymNum.fin 8 ≠ SymNum.fin 0 ∧
        SymNum.fin 2 ≠ SymNum.fin 0 ∧ SymNum.fin 4 ≠ SymNum.fin 0) ∧
      (TradeAndPPF.cost_a_a (SymNum.fin 8) (SymNum.fin 8) ≠ SymNum.zoo ∧
        TradeAndPPF.cost_a_b (SymNum.fin 8) (SymNum.fin 8) ≠ SymNum.zoo ∧
        TradeAndPPF.cost_b_a (SymNum.fin 2) (SymNum.fin 4) ≠ SymNum.zoo ∧
        TradeAndPPF.cost_b_b (SymNum.fin 2) (SymNum.fin 4) ≠ SymNum.zoo) ∧
      (∀ qaa qab : ℚ, SymNum.fin 8 = SymNum.fin qaa →
        SymNum.fin 8 = SymNum.fin qab →
        TradeAndPPF.cost_a_a (SymNum.fin 8) (SymNum.fin 8) =
            SymNum.fin (qab / qaa) ∧
          0 < qab / qaa ∧
          TradeAndPPF.cost_a_b (SymNum.fin 8) (SymNum.fin 8) =
            SymNum.fin (qaa / qab) ∧
          0 < qaa / qab) ∧
      (∀ qba qbb : ℚ, SymNum.fin 2 = SymNum.fin qba →
        SymNum.fin 4 = SymNum.fin qbb →
        TradeAndPPF.cost_b_a (SymNum.fin 2) (SymNum.fin 4) =
            SymNum.fin (qbb / qba) ∧
          0 < qbb / qba ∧
          TradeAndPPF.cost_b_b (SymNum.fin 2) (SymNum.fin 4) =
            SymNum.fin (qba / qbb) ∧
          0 < qba / qbb) :=
  C9_opportunity_costs_positive
    (.success (.num (.fin 8))) (.success (.num (.fin 8)))
    (.success (.num (.fin 2))) (.success (.num (.fin 4)))
    (.fin 8) (.fin 8) (.fin 2) (.fin 4) rfl rfl rfl rfl

/-- C10: for every expression and precision, if the numeric evaluation at
that precision equals (sympy `==`) the expression, then `latex_approx`
returns the plain LaTeX of the expression in all three modes — an exact
value is never displayed with an approximation. -/
theorem C10_exact_never_approximated (expr : Util.SymExpr) (perc : ℕ)
    (h : Util.val (Util.N expr perc) = Util.val expr) :
    Util.latex_approx expr perc Util.Approx.HIDE = Util.latex expr ∧
      Util.latex_approx expr perc Util.Approx.REPLACE = Util.latex expr ∧
      Util.latex_approx expr perc Util.Approx.APPEND = Util.latex expr := by
  refine ⟨rfl, ?_, ?_⟩ <;> simp [Util.latex_approx, h]

/-- Evaluation helper: the numeric evaluation of the exact integer `2` at
precision `15` has the same value `2`. -/
theorem util_N_two_eval :
    Util.val (Util.N (Util.SymExpr.exact 2) 15) =
      Util.val (Util.SymExpr.exact 2) := by
  norm_num [Util.N, Util.val, Util.dyadicRound]

/-- Witness for C10 at the exact integer expression `2`, precision `15`. -/
theorem C10_witness :
    Util.latex_approx (Util.SymExpr.exact 2) 15 Util.Approx.HIDE =
        Util.latex (Util.SymExpr.exact 2) ∧
      Util.latex_approx (Util.SymExpr.exact 2) 15 Util.Approx.REPLACE =
        Util.latex (Util.SymExpr.exact 2) ∧
      Util.latex_approx (Util.SymExpr.exact 2) 15 Util.Approx.APPEND =
        Util.latex (Util.SymExpr.exact 2) :=
  C10_exact_never_approximated (Util.SymExpr.exact 2) 15 util_N_two_eval

/-- C3 fails on the code as stated: for the exact integer expression `2`
at precision `15` in `APPEND` mode, the numeric evaluation (a float of
value `2`) equals the expression under sympy `==`, so `latex_approx`
returns the plain `"2"` and not `"2\approx 2.0"` — the LaTeX of the
expression followed by `\approx` and the LaTeX of the evaluation. -/
theorem C3_counterexample :
    Util.latex_approx (Util.SymExpr.exact 2) 15 Util.Approx.APPEND = "2" ∧
      Util.latex (Util.SymExpr.exact 2) ++ "\\approx " ++
          Util.latex (Util.N (Util.SymExpr.exact 2) 15) = "2\\approx 2.0" ∧
      ("2" : String) ≠ "2\\approx 2.0" := by
  refine ⟨?_, ?_, by decide⟩
  · norm_num [Util.latex_approx, Util.latex, Util.N, Util.dyadicRound,
      Util.val]
    rfl
  · norm_num [Util.latex, Util.N, Util.dyadicRound, Util.val,
      Util.decimalString, Util.decimalOfNonneg, Util.intPart]
    rfl

/-- C3 amended: `latex_approx` returns the plain LaTeX of the expression
when the mode is `HIDE`; in the other modes it evaluates numerically at
`perc` digits and, when the evaluation differs (sympy `==`) from the
expression, returns the LaTeX of the evaluation for `REPLACE` and the
LaTeX of the expression followed by `\approx` and the LaTeX of the
evaluation for `APPEND`; when the evaluation equals the expression, both
modes return the plain LaTeX of the expression. -/
theorem C3_latex_approx_modes (expr : Util.SymExpr) (perc : ℕ) :
    Util.latex_approx expr perc Util.Approx.HIDE = Util.latex expr ∧
      (Util.val (Util.N expr perc) ≠ Util.val expr →
        Util.latex_approx expr perc Util.Approx.REPLACE =
            Util.latex (Util.N expr perc) ∧
          Util.latex_approx expr perc Util.Approx.APPEND =
            Util.latex expr ++ "\\approx " ++
              Util.latex (Util.N expr perc)) ∧
      (Util.val (Util.N expr perc) = Util.val expr →
        Util.latex_approx expr perc Util.Approx.REPLACE = Util.latex expr ∧
          Util.latex_approx expr perc Util.Approx.APPEND =
            Util.latex expr) := by
  refine ⟨rfl, fun h => ⟨?_, ?_⟩, fun h => ⟨?_, ?_⟩⟩ <;>
    simp [Util.latex_approx, h]

/-- Evaluation helper: the numeric evaluation of `1/3` at precision `2`
(value `1/4`) differs from `1/3`. -/
theorem util_N_third_ne :
    Util.val (Util.N (Util.SymExpr.exact (1 / 3)) 2) ≠
      Util.val (Util.SymExpr.exact (1 / 3)) := by
  norm_num [Util.N, Util.val, Util.dyadicRound]

/-- Witness for the amended C3 at the expression `1/3`, precision `2`,
where the numeric evaluation differs from the expression. -/
theorem C3_witness :
    Util.latex_approx (Util.SymExpr.exact (1 / 3)) 2 Util.Approx.REPLACE =
        Util.latex (Util.N (Util.SymExpr.exact (1 / 3)) 2) ∧
      Util.latex_approx (Util.SymExpr.exact (1 / 3)) 2 Util.Approx.APPEND =
        Util.latex (Util.SymExpr.exact (1 / 3)) ++ "\\approx " ++
          Util.latex (Util.N (Util.SymExpr.exact (1 / 3)) 2) :=
  (C3_latex_approx_modes (Util.SymExpr.exact (1 / 3)) 2).2.1 util_N_third_ne

/-- C6: whenever the symbolic solve behind a calculator returns a number
of solutions different from exactly one, the calculator cancels its
output, and every output depending on it is cancelled too, rather than a
solution being selected arbitrarily or an exception raised: shown for
`P_d` of `module.py` (with its dependent `P_taxed_consumer`),
`taxed_equilibrium` of `taxes_and_subsidies.py` (with dependents
`Q_taxed`, `GR` and `DWL`) and `monopoly_quantity` of `monopoly.py` (with
dependent `monopoly_price`). -/
theorem C6_cancel_on_no_unique_solution :
    (∀ d : LinRel, (SymPy.solveAffine d.a d.b d.c).length ≠ 1 →
      DS.P_d d = none ∧
        ∀ (s : LinRel) (tc tp : ℚ), Tax.P_taxed_consumer d s tc tp = none) ∧
      (∀ (d s : LinRel) (tc tp : ℚ),
        (SymPy.solve2 (Tax.taxed_demand d tc).a (Tax.taxed_demand d tc).b
            (Tax.taxed_demand d tc).c (Tax.taxed_supply s tp).a
            (Tax.taxed_supply s tp).b
            (Tax.taxed_supply s tp).c).length ≠ 1 →
        Tax.taxed_equilibrium d s tc tp = none ∧
          Tax.Q_taxed d s tc tp = none ∧ Tax.GR d s tc tp = none ∧
          Tax.DWL d s tc tp = none) ∧
      (∀ (dm : ℚ × ℚ) (tcost : Quad),
        (SymPy.solveLinear1
            ((Monopoly.marginal_revenue dm).1 -
              (Monopoly.marginal_cost tcost).1)
            ((Monopoly.marginal_revenue dm).2 -
              (Monopoly.marginal_cost tcost).2)).length ≠ 1 →
        Monopoly.monopoly_quantity dm tcost = none ∧
          Monopoly.monopoly_price dm tcost = none) := by
  refine ⟨?_, ?_, ?_⟩
  · intro d h
    have hp : DS.P_d d = none := by
      simp [DS.P_d, reqSingle_eq_none h]
    exact ⟨hp, fun s tc tp => by simp [Tax.P_taxed_consumer, hp]⟩
  · intro d s tc tp h
    have hte : Tax.taxed_equilibrium d s tc tp = none := by
      simp [Tax.taxed_equilibrium, reqSingle_eq_none h]
    have hqt : Tax.Q_taxed d s tc tp = none := by simp [Tax.Q_taxed, hte]
    refine ⟨hte, hqt, by simp [Tax.GR, hqt], ?_⟩
    unfold Tax.DWL
    cases hpd : DS.P_d d <;> cases hps : DS.P_s s <;> simp [hqt]
  · intro dm tcost h
    have hq : Monopoly.monopoly_quantity dm tcost = none := by
      simp [Monopoly.monopoly_quantity, reqSingle_eq_none h]
    exact ⟨hq, by simp [Monopoly.monopoly_price, hq]⟩

/-- Evaluation helper: the demand relation `0*P + 1*Q = 5` (no `P` term)
has no solution for `P`, so the solve returns zero solutions. -/
theorem ds_no_solution_eval :
    (SymPy.solveAffine (LinRel.mk 0 1 5).a (LinRel.mk 0 1 5).b
      (LinRel.mk 0 1 5).c).length ≠ 1 := by
  norm_num [SymPy.solveAffine]

/-- Evaluation helper: parallel taxed demand and supply curves give a
singular system, so the taxed-equilibrium solve returns zero solutions. -/
theorem tax_singular_eval :
    (SymPy.solve2 (Tax.taxed_demand ⟨1, 1, 10⟩ 0).a
      (Tax.taxed_demand ⟨1, 1, 10⟩ 0).b (Tax.taxed_demand ⟨1, 1, 10⟩ 0).c
      (Tax.taxed_supply ⟨1, 1, 5⟩ 0).a (Tax.taxed_supply ⟨1, 1, 5⟩ 0).b
      (Tax.taxed_supply ⟨1, 1, 5⟩ 0).c).length ≠ 1 := by
  norm_num [Tax.taxed_demand, Tax.taxed_supply, SymPy.solve2]

/-- Evaluation helper: marginal revenue and marginal cost with equal
slopes give `MR - MC = 0` no solution in `Q`. -/
theorem monopoly_singular_eval :
    (SymPy.solveLinear1
      ((Monopoly.marginal_revenue (10, 1)).1 -
        (Monopoly.marginal_cost ⟨0, 0, 1⟩).1)
      ((Monopoly.marginal_revenue (10, 1)).2 -
        (Monopoly.marginal_cost ⟨0, 0, 1⟩).2)).length ≠ 1 := by
  norm_num [Monopoly.marginal_revenue, Monopoly.marginal_cost,
    SymPy.solveLinear1]

/-- Witness for C6: concrete no-unique-solution inputs at which the three
calculators and their dependents all cancel. -/
theorem C6_witness :
    DS.P_d ⟨0, 1, 5⟩ = none ∧
      Tax.P_taxed_consumer ⟨0, 1, 5⟩ ⟨-1, 1, -5⟩ 5 5 = none ∧
      Tax.taxed_equilibrium ⟨1, 1, 10⟩ ⟨1, 1, 5⟩ 0 0 = none ∧
      Tax.DWL ⟨1, 1, 10⟩ ⟨1, 1, 5⟩ 0 0 = none ∧
      Monopoly.monopoly_quantity (10, 1) ⟨0, 0, 1⟩ = none ∧
      Monopoly.monopoly_price (10, 1) ⟨0, 0, 1⟩ = none :=
  ⟨(C6_cancel_on_no_unique_solution.1 ⟨0, 1, 5⟩ ds_no_solution_eval).1,
    (C6_cancel_on_no_unique_solution.1 ⟨0, 1, 5⟩
      ds_no_solution_eval).2 ⟨-1, 1, -5⟩ 5 5,
    (C6_cancel_on_no_unique_solution.2.1 ⟨1, 1, 10⟩ ⟨1, 1, 5⟩ 0 0
      tax_singular_eval).1,
    (C6_cancel_on_no_unique_solution.2.1 ⟨1, 1, 10⟩ ⟨1, 1, 5⟩ 0 0
      tax_singular_eval).2.2.2,
    (C6_cancel_on_no_unique_solution.2.2 (10, 1) ⟨0, 0, 1⟩
      monopoly_singular_eval).1,
    (C6_cancel_on_no_unique_solution.2.2 (10, 1) ⟨0, 0, 1⟩
      monopoly_singular_eval).2⟩

/-- Support for the equilibrium-and-welfare module: `simplify` is not
among the names the file imports, so the shipped `CS`, `PS` and `TS`
calculators raise `NameError` whenever they are evaluated (and the
`common` module providing `mathjax_script` is absent altogether). -/
theorem ew_simplify_not_imported : "simplify" ∉ EW.importedNames := by
  decide

/-- C1: on the linear fragment, for demand and supply equations whose
inverse curves exist and whose simultaneous solve yields the unique
positive equilibrium `(P*, Q*)`, the computed equilibrium satisfies both
equations, `CS` is the definite integral of `P_d - P*` over `Q` from `0`
to `Q*`, `PS` is the definite integral of `P* - P_s`, and `TS = CS + PS`.
(As shipped these calculators cannot run — see
`ew_simplify_not_imported`; the theorem verifies the computation that the
module's code and displayed formulas specify, with the missing `simplify`
read as the identity.) -/
theorem C1_equilibrium_welfare (d s : LinRel) (pd ps : ℚ × ℚ) (P Q : ℚ)
    (hpd : EW.P_d d = some pd) (hps : EW.P_s s = some ps)
    (heq : EW.equilibrium d s = some (P, Q)) :
    (d.a * P + d.b * Q = d.c ∧ s.a * P + s.b * Q = s.c) ∧
      EW.CS d s = some (SymPy.integrate_affine (pd.1 - P) pd.2 0 Q) ∧
      ((SymPy.integrate_affine (pd.1 - P) pd.2 0 Q : ℚ) : ℝ) =
        (∫ t in (0 : ℝ)..(Q : ℝ),
          ((pd.1 : ℝ) + (pd.2 : ℝ) * t - (P : ℝ))) ∧
      EW.PS d s = some (SymPy.integrate_affine (P - ps.1) (-ps.2) 0 Q) ∧
      ((SymPy.integrate_affine (P - ps.1) (-ps.2) 0 Q : ℚ) : ℝ) =
        (∫ t in (0 : ℝ)..(Q : ℝ),
          ((P : ℝ) - ((ps.1 : ℝ) + (ps.2 : ℝ) * t))) ∧
      EW.TS d s = some (SymPy.integrate_affine (pd.1 - P) pd.2 0 Q +
        SymPy.integrate_affine (P - ps.1) (-ps.2) 0 Q) := by
  have hsys : SymPy.solve2 d.a d.b d.c s.a s.b s.c = [(P, Q)] :=
    reqSingle_eq_some.mp heq
  obtain ⟨h1, h2, hP, hQ⟩ := SymPy.solve2_sound hsys
  refine ⟨⟨h1, h2⟩, ?_, ?_, ?_, ?_, ?_⟩
  · simp [EW.CS, hpd, heq]
  · have hfun : (fun t : ℝ => (pd.1 : ℝ) + (pd.2 : ℝ) * t - (P : ℝ)) =
        fun t : ℝ => ((pd.1 - P : ℚ) : ℝ) + ((pd.2 : ℚ) : ℝ) * t := by
      funext t
      push_cast
      ring
    rw [hfun]
    exact SymPy.integrate_affine_zero (pd.1 - P) pd.2 Q
  · simp [EW.PS, hps, heq]
  · have hfun : (fun t : ℝ => (P : ℝ) - ((ps.1 : ℝ) + (ps.2 : ℝ) * t)) =
        fun t : ℝ => ((P - ps.1 : ℚ) : ℝ) + ((-ps.2 : ℚ) : ℝ) * t := by
      funext t
      push_cast
      ring
    rw [hfun]
    exact SymPy.integrate_affine_zero (P - ps.1) (-ps.2) Q
  · simp [EW.TS, EW.CS, EW.PS, hpd, hps, heq]

/-- Evaluation helper: inverse demand for the default demand curve
`Q = 50 - P/2`, i.e. `P/2 + Q = 50`. -/
theorem ew_P_d_default : EW.P_d ⟨1 / 2, 1, 50⟩ = some (100, -2) := by
  norm_num [EW.P_d, SymPy.solveAffine, reqSingle]

/-- Evaluation helper: inverse supply for the default supply curve
`Q = P - 5`, i.e. `-P + Q = -5`. -/
theorem ew_P_s_default : EW.P_s ⟨-1, 1, -5⟩ = some (5, 1) := by
  norm_num [EW.P_s, SymPy.solveAffine, reqSingle]

/-- Evaluation helper: the default market clears at
`(P*, Q*) = (110/3, 95/3)`. -/
theorem ew_equilibrium_default :
    EW.equilibrium ⟨1 / 2, 1, 50⟩ ⟨-1, 1, -5⟩ = some (110 / 3, 95 / 3) := by
  norm_num [EW.equilibrium, SymPy.solve2, reqSingle]

/-- Witness for C1 at the page's default demand and supply curves. -/
theorem C1_witness :
    ((1 / 2 : ℚ) * (110 / 3) + 1 * (95 / 3) = 50 ∧
        (-1 : ℚ) * (110 / 3) + 1 * (95 / 3) = -5) ∧
      EW.CS ⟨1 / 2, 1, 50⟩ ⟨-1, 1, -5⟩ =
        some (SymPy.integrate_affine (100 - 110 / 3) (-2) 0 (95 / 3)) ∧
      ((SymPy.integrate_affine (100 - 110 / 3) (-2) 0 (95 / 3) : ℚ) : ℝ) =
        (∫ t in (0 : ℝ)..((95 / 3 : ℚ) : ℝ),
          (((100 : ℚ) : ℝ) + ((-2 : ℚ) : ℝ) * t - ((110 / 3 : ℚ) : ℝ))) ∧
      EW.PS ⟨1 / 2, 1, 50⟩ ⟨-1, 1, -5⟩ =
        some (SymPy.integrate_affine (110 / 3 - 5) (-1) 0 (95 / 3)) ∧
      ((SymPy.integrate_affine (110 / 3 - 5) (-1) 0 (95 / 3) : ℚ) : ℝ) =
        (∫ t in (0 : ℝ)..((95 / 3 : ℚ) : ℝ),
          (((110 / 3 : ℚ) : ℝ) - (((5 : ℚ) : ℝ) + ((1 : ℚ) : ℝ) * t))) ∧
      EW.TS ⟨1 / 2, 1, 50⟩ ⟨-1, 1, -5⟩ =
        some (SymPy.integrate_affine (100 - 110 / 3) (-2) 0 (95 / 3) +
          SymPy.integrate_affine (110 / 3 - 5) (-1) 0 (95 / 3)) :=
  C1_equilibrium_welfare ⟨1 / 2, 1, 50⟩ ⟨-1, 1, -5⟩ (100, -2) (5, 1)
    (110 / 3) (95 / 3) ew_P_d_default ew_P_s_default ew_equilibrium_default

/-- C4: for demand/supply curves with inverse curves and unique no-tax and
taxed equilibria, the computed deadweight loss — the integral of
`P_d - P_s` over `Q` from `Q^t` to `Q^*` — equals the no-tax total
surplus (the integral of `P_d - P_s` from `0` to `Q^*`) minus the sum of
the taxed consumer surplus (integral of `P_d - P_c^t` from `0` to `Q^t`),
the taxed producer surplus (integral of `P_p^t - P_s` from `0` to `Q^t`)
and the government revenue `GR = (t_c + t_p) * Q^t`. -/
theorem C4_deadweight_loss (d s : LinRel) (pd ps : ℚ × ℚ)
    (P0 Q0 Pt Qt tc tp : ℚ)
    (hpd : DS.P_d d = some pd) (hps : DS.P_s s = some ps)
    (heq : Tax.equilibrium d s = some (P0, Q0))
    (hteq : Tax.taxed_equilibrium d s tc tp = some (Pt, Qt)) :
    Tax.DWL d s tc tp =
        some (SymPy.integrate_affine (pd.1 - ps.1) (pd.2 - ps.2) Qt Q0) ∧
      Tax.P_taxed_consumer d s tc tp = some (pd.1 + pd.2 * Qt) ∧
      Tax.P_taxed_producer d s tc tp = some (ps.1 + ps.2 * Qt) ∧
      Tax.GR d s tc tp = some ((tc + tp) * Qt) ∧
      ((SymPy.integrate_affine (pd.1 - ps.1) (pd.2 - ps.2) Qt Q0 : ℚ) : ℝ) =
        (∫ t in (0 : ℝ)..(Q0 : ℝ),
            ((pd.1 : ℝ) + (pd.2 : ℝ) * t -
              ((ps.1 : ℝ) + (ps.2 : ℝ) * t)))
          - ((∫ t in (0 : ℝ)..(Qt : ℝ),
                ((pd.1 : ℝ) + (pd.2 : ℝ) * t -
                  ((pd.1 + pd.2 * Qt : ℚ) : ℝ)))
            + (∫ t in (0 : ℝ)..(Qt : ℝ),
                (((ps.1 + ps.2 * Qt : ℚ) : ℝ) -
                  ((ps.1 : ℝ) + (ps.2 : ℝ) * t)))
            + ((tc : ℝ) + (tp : ℝ)) * (Qt : ℝ)) := by
  obtain ⟨pd1, pd2⟩ := pd
  obtain ⟨ps1, ps2⟩ := ps
  have hsolA : SymPy.solveAffine d.a d.b d.c = [(pd1, pd2)] :=
    reqSingle_eq_some.mp hpd
  have hsolB : SymPy.solveAffine s.a s.b s.c = [(ps1, ps2)] :=
    reqSingle_eq_some.mp hps
  have hteq2 : SymPy.solve2 d.a d.b (d.c - d.a * tc) s.a s.b
      (s.c + s.a * tp) = [(Pt, Qt)] := by
    have h := reqSingle_eq_some.mp hteq
    simpa [Tax.taxed_demand, Tax.taxed_supply] using h
  obtain ⟨ht1, ht2, hPt, hQt⟩ := SymPy.solve2_sound hteq2
  have hda : d.a ≠ 0 := (SymPy.solveAffine_eq_singleton hsolA).1
  have hsa : s.a ≠ 0 := (SymPy.solveAffine_eq_singleton hsolB).1
  have hdQt := SymPy.solveAffine_sound hsolA Qt
  have hsQt := SymPy.solveAffine_sound hsolB Qt
  have hPct : pd1 + pd2 * Qt = Pt + tc := by
    have hz : d.a * ((pd1 + pd2 * Qt) - (Pt + tc)) = 0 := by
      linear_combination hdQt - ht1
    rcases mul_eq_zero.mp hz with h | h
    · exact absurd h hda
    · linarith [sub_eq_zero.mp h]
  have hPpt : ps1 + ps2 * Qt = Pt - tp := by
    have hz : s.a * ((ps1 + ps2 * Qt) - (Pt - tp)) = 0 := by
      linear_combination hsQt - ht2
    rcases mul_eq_zero.mp hz with h | h
    · exact absurd h hsa
    · linarith [sub_eq_zero.mp h]
  have hQtv : Tax.Q_taxed d s tc tp = some Qt := by
    simp [Tax.Q_taxed, hteq]
  have hQ0v : Tax.Q_optimal d s = some Q0 := by
    simp [Tax.Q_optimal, heq]
  refine ⟨?_, ?_, ?_, ?_, ?_⟩
  · simp [Tax.DWL, hpd, hps, hQtv, hQ0v]
  · simp [Tax.P_taxed_consumer, hpd, hQtv]
  · simp [Tax.P_taxed_producer, hps, hQtv]
  · simp [Tax.GR, hQtv]
  · have e0 : (fun t : ℝ => (pd1 : ℝ) + (pd2 : ℝ) * t -
        ((ps1 : ℝ) + (ps2 : ℝ) * t)) =
        fun t : ℝ => (((pd1 : ℝ) - (ps1 : ℝ)) +
          ((pd2 : ℝ) - (ps2 : ℝ)) * t) := by
      funext t
      ring
    have e1 : (fun t : ℝ => (pd1 : ℝ) + (pd2 : ℝ) * t -
        ((pd1 + pd2 * Qt : ℚ) : ℝ)) =
        fun t : ℝ => (((pd1 : ℝ) - ((pd1 + pd2 * Qt : ℚ) : ℝ)) +
          (pd2 : ℝ) * t) := by
      funext t
      ring
    have e2 : (fun t : ℝ => ((ps1 + ps2 * Qt : ℚ) : ℝ) -
        ((ps1 : ℝ) + (ps2 : ℝ) * t)) =
        fun t : ℝ => ((((ps1 + ps2 * Qt : ℚ) : ℝ) - (ps1 : ℝ)) +
          (-(ps2 : ℝ)) * t) := by
      funext t
      ring
    rw [e0, e1, e2, SymPy.integral_affine, SymPy.integral_affine,
      SymPy.integral_affine]
    have hPctR : (pd1 : ℝ) + (pd2 : ℝ) * (Qt : ℝ) =
        (Pt : ℝ) + (tc : ℝ) := by
      exact_mod_cast congrArg (fun q : ℚ => (q : ℝ)) hPct
    have hPptR : (ps1 : ℝ) + (ps2 : ℝ) * (Qt : ℝ) =
        (Pt : ℝ) - (tp : ℝ) := by
      exact_mod_cast congrArg (fun q : ℚ => (q : ℝ)) hPpt
    push_cast [SymPy.integrate_affine]
    linear_combination (Qt : ℝ) * hPptR - (Qt : ℝ) * hPctR

/-- Evaluation helper: `module.py` inverse demand for the default curve. -/
theorem ds_P_d_default : DS.P_d ⟨1 / 2, 1, 50⟩ = some (100, -2) := by
  norm_num [DS.P_d, SymPy.solveAffine, reqSingle]

/-- Evaluation helper: `module.py` inverse supply for the default curve. -/
theorem ds_P_s_default : DS.P_s ⟨-1, 1, -5⟩ = some (5, 1) := by
  norm_num [DS.P_s, SymPy.solveAffine, reqSingle]

/-- Evaluation helper: the default no-tax equilibrium in the taxes
module. -/
theorem tax_equilibrium_default :
    Tax.equilibrium ⟨1 / 2, 1, 50⟩ ⟨-1, 1, -5⟩ = some (110 / 3, 95 / 3) := by
  norm_num [Tax.equilibrium, SymPy.solve2, reqSingle]

/-- Evaluation helper: the default taxed equilibrium with
`t_c = t_p = 5`. -/
theorem tax_taxed_equilibrium_default :
    Tax.taxed_equilibrium ⟨1 / 2, 1, 50⟩ ⟨-1, 1, -5⟩ 5 5 =
      some (115 / 3, 85 / 3) := by
  norm_num [Tax.taxed_equilibrium, Tax.taxed_demand, Tax.taxed_supply,
    SymPy.solve2, reqSingle]

/-- Witness for C4 at the default demand/supply curves and the default
taxes `t_c = t_p = 5`. -/
theorem C4_witness :
    Tax.DWL ⟨1 / 2, 1, 50⟩ ⟨-1, 1, -5⟩ 5 5 =
        some (SymPy.integrate_affine (100 - 5) (-2 - 1) (85 / 3) (95 / 3)) ∧
      Tax.P_taxed_consumer ⟨1 / 2, 1, 50⟩ ⟨-1, 1, -5⟩ 5 5 =
        some (100 + -2 * (85 / 3)) ∧
      Tax.P_taxed_producer ⟨1 / 2, 1, 50⟩ ⟨-1, 1, -5⟩ 5 5 =
        some (5 + 1 * (85 / 3)) ∧
      Tax.GR ⟨1 / 2, 1, 50⟩ ⟨-1, 1, -5⟩ 5 5 = some ((5 + 5) * (85 / 3)) ∧
      ((SymPy.integrate_affine (100 - 5) (-2 - 1) (85 / 3) (95 / 3) : ℚ) :
          ℝ) =
        (∫ t in (0 : ℝ)..((95 / 3 : ℚ) : ℝ),
            (((100 : ℚ) : ℝ) + ((-2 : ℚ) : ℝ) * t -
              (((5 : ℚ) : ℝ) + ((1 : ℚ) : ℝ) * t)))
          - ((∫ t in (0 : ℝ)..((85 / 3 : ℚ) : ℝ),
                (((100 : ℚ) : ℝ) + ((-2 : ℚ) : ℝ) * t -
                  ((100 + -2 * (85 / 3) : ℚ) : ℝ)))
            + (∫ t in (0 : ℝ)..((85 / 3 : ℚ) : ℝ),
                (((5 + 1 * (85 / 3) : ℚ) : ℝ) -
                  (((5 : ℚ) : ℝ) + ((1 : ℚ) : ℝ) * t)))
            + (((5 : ℚ) : ℝ) + ((5 : ℚ) : ℝ)) * ((85 / 3 : ℚ) : ℝ)) :=
  C4_deadweight_loss ⟨1 / 2, 1, 50⟩ ⟨-1, 1, -5⟩ (100, -2) (5, 1)
    (110 / 3) (95 / 3) (115 / 3) (85 / 3) 5 5
    ds_P_d_default ds_P_s_default tax_equilibrium_default
    tax_taxed_equilibrium_default

/-- C5: for an entered relation uniquely solvable for the dependent
variable `y` as an affine function of `x`, the computed elasticity is the
derivative `dy/dx` multiplied by `x/y`; and for an entered value that
determines, together with `y = y(x)`, a unique positive point `(x0, y0)`,
the point elasticity is that expression with the point substituted in. -/
theorem C5_elasticity (rel pt : LinRel) (yf : ℚ × ℚ) (x0 y0 : ℚ)
    (hy : Elast.y rel = some yf)
    (hpt : Elast.point_xy rel (ParseOutcome.success pt) = some (x0, y0)) :
    (∃ f, Elast.epsilon rel = some f ∧
      ∀ x ySym : ℚ, ((f x ySym : ℚ) : ℝ) =
        deriv (fun t : ℝ => (yf.1 : ℝ) + (yf.2 : ℝ) * t) (x : ℝ) *
          (x : ℝ) / (ySym : ℝ)) ∧
      (pt.a * x0 + pt.b * y0 = pt.c ∧ y0 = yf.1 + yf.2 * x0 ∧
        0 < x0 ∧ 0 < y0) ∧
      (∀ x1 y1 : ℚ, pt.a * x1 + pt.b * y1 = pt.c →
        y1 = yf.1 + yf.2 * x1 → x1 = x0 ∧ y1 = y0) ∧
      Elast.point_epsilon rel (ParseOutcome.success pt) =
        some (yf.2 * x0 / y0) := by
  have h : (match SymPy.solve2 pt.a pt.b pt.c (-yf.2) 1 yf.1 with
      | [] => none
      | s :: _ => some s) = some (x0, y0) := by
    have h2 := hpt
    unfold Elast.point_xy at h2
    rw [hy] at h2
    exact h2
  have hsol : SymPy.solve2 pt.a pt.b pt.c (-yf.2) 1 yf.1 = [(x0, y0)] := by
    rcases SymPy.solve2_cases pt.a pt.b pt.c (-yf.2) 1 yf.1 with
      hc | ⟨x2, y2, hc⟩
    · rw [hc] at h
      exact absurd h (by simp)
    · rw [hc] at h
      have hpair : (x2, y2) = (x0, y0) := by simpa using h
      rw [hc, hpair]
  obtain ⟨hs1, hs2, hx0, hy0⟩ := SymPy.solve2_sound hsol
  have hdet := (SymPy.solve2_eq_singleton hsol).1
  have hy0eq : y0 = yf.1 + yf.2 * x0 := by linear_combination hs2
  refine ⟨⟨fun x ySym => yf.2 * x / ySym, by simp [Elast.epsilon, hy], ?_⟩,
    ⟨hs1, hy0eq, hx0, hy0⟩, ?_, ?_⟩
  · intro x ySym
    rw [SymPy.deriv_affine]
    push_cast
    ring
  · intro x1 y1 h1 h2
    have h2A : -yf.2 * x1 + 1 * y1 = yf.1 := by linear_combination h2
    obtain ⟨hx1, hy1⟩ := SymPy.solve2_unique hdet h1 h2A
    obtain ⟨hx0A, hy0A⟩ := SymPy.solve2_unique hdet hs1 hs2
    exact ⟨hx1.trans hx0A.symm, hy1.trans hy0A.symm⟩
  · simp [Elast.point_epsilon, Elast.epsilon, Elast.point_x, Elast.point_y,
      hy, hpt]

/-- Evaluation helper: the default demand-elasticity relation
`Q_d = 100 - P`, i.e. `x + y = 100`, solved for `y`. -/
theorem elast_y_default : Elast.y ⟨1, 1, 100⟩ = some (100, -1) := by
  norm_num [Elast.y, SymPy.solveAffine, reqSingle]

/-- Evaluation helper: the default entered value `Q_d = 90` determines the
point `(10, 90)` on the default demand curve. -/
theorem elast_point_xy_default :
    Elast.point_xy ⟨1, 1, 100⟩ (ParseOutcome.success ⟨0, 1, 90⟩) =
      some (10, 90) := by
  norm_num [Elast.point_xy, Elast.y, SymPy.solveAffine, SymPy.solve2,
    reqSingle]

/-- Witness for C5 at the default demand-elasticity inputs. -/
theorem C5_witness :
    (∃ f, Elast.epsilon ⟨1, 1, 100⟩ = some f ∧
      ∀ x ySym : ℚ, ((f x ySym : ℚ) : ℝ) =
        deriv (fun t : ℝ => ((100 : ℚ) : ℝ) + ((-1 : ℚ) : ℝ) * t) (x : ℝ) *
          (x : ℝ) / (ySym : ℝ)) ∧
      ((0 : ℚ) * 10 + 1 * 90 = 90 ∧ (90 : ℚ) = 100 + -1 * 10 ∧
        (0 : ℚ) < 10 ∧ (0 : ℚ) < 90) ∧
      (∀ x1 y1 : ℚ, (0 : ℚ) * x1 + 1 * y1 = 90 →
        y1 = 100 + -1 * x1 → x1 = 10 ∧ y1 = 90) ∧
      Elast.point_epsilon ⟨1, 1, 100⟩ (ParseOutcome.success ⟨0, 1, 90⟩) =
        some (-1 * 10 / 90) :=
  C5_elasticity ⟨1, 1, 100⟩ ⟨0, 1, 90⟩ (100, -1) 10 90
    elast_y_default elast_point_xy_default
